import Mathlib

/-!
Verification of the op-hiscores summarizer pipeline and RSS feed route.

The development shallowly embeds two source files:
* the repository-summary pipeline (`checkExistingSummary`,
  `generateRepoSummaryForInterval`, the per-granularity gates), with
  external collaborators (filesystem, database, AI summarizer) modelled
  as oracles returning `Except` values and side effects recorded in an
  explicit trace; and
* the RSS feed route (`escapeXml`, `formatItem`, the per-granularity
  database queries and item assembly), with the database modelled as a
  list of rows and the select/orderBy-desc/limit query as
  filter/mergeSort/take.
-/

namespace OpHiscores

/-- Interval granularity (`IntervalType` from `@/lib/date-utils`). -/
inductive IntervalType
  | day
  | week
  | month
deriving DecidableEq, Repr

/-- A time bucket (`TimeInterval`): a granularity tag plus start/end dates.
Dates are abstract time points; rendering to strings goes through the
collaborator `toDateString`. -/
structure TimeInterval where
  intervalType : IntervalType
  intervalStart : Nat
  intervalEnd : Nat
deriving DecidableEq, Repr

/-- The AI-summary configuration surface the worker reads. -/
structure AiSummaryConfig where
  enabled : Bool
deriving DecidableEq, Repr

/-- Per-granularity enabled flags (`context.enabledIntervals`). -/
structure EnabledIntervals where
  day : Bool
  week : Bool
  month : Bool
deriving DecidableEq, Repr

/-- The pipeline context (`SummarizerPipelineContext`) restricted to the
fields the embedded code reads. -/
structure SummarizerPipelineContext where
  aiSummaryConfig : AiSummaryConfig
  overwrite : Bool
  outputDir : Option String
  enabledIntervals : EnabledIntervals

/-- Opaque payload returned by the metrics query collaborator. -/
structure Metrics where
  payload : Nat
deriving DecidableEq, Repr

/-- The date range the worker derives from an interval. -/
structure DateRange where
  startDate : String
  endDate : String
deriving DecidableEq, Repr

/-- Observable side effects of one worker invocation, in order. -/
inductive Effect
  | checkedFile (path : String)
  | fetchedMetrics (repository : String) (startDate endDate : String)
  | summarized (startDate endDate : String) (intervalType : IntervalType)
  | stored (repoId date summaryText : String) (intervalType : IntervalType)
  | wrote (path content : String)
  | loggedError (repoId : String)
deriving DecidableEq, Repr

/-- External collaborators of the worker.  Fallible calls return
`Except String`; an `Except.error` models a thrown exception. -/
structure Collab where
  toDateString : Nat → String
  getRepoFilePath : Option String → String → String → IntervalType → String → String
  existsSync : String → Except String Bool
  getRepoMetrics : String → DateRange → Except String Metrics
  generateRepoSummary :
    Metrics → AiSummaryConfig → DateRange → IntervalType → Except String (Option String)
  storeRepoSummary : String → String → String → IntervalType → Except String Unit
  writeToFile : String → String → Except String Unit

/-- JavaScript falsiness of an optional string: `undefined` and the empty
string are falsy. -/
def strFalsy : Option String → Bool
  | none => true
  | some s => s.isEmpty

/-- Model of `checkExistingSummary(repoId, date, intervalType, outputDir)`: when
`outputDir` is falsy it returns `false` without touching the filesystem;
otherwise it tests existence of the deterministic export path.  The second
component records the filesystem probes performed. -/
def checkExistingSummary (c : Collab) (repoId : String) (date : String)
    (intervalType : IntervalType) (outputDir : Option String) :
    Except String Bool × List Effect :=
  if strFalsy outputDir then (Except.ok false, [])
  else
    let filename := date ++ ".md"
    let summaryPath := c.getRepoFilePath outputDir repoId "summaries" intervalType filename
    (c.existsSync summaryPath, [Effect.checkedFile summaryPath])

/-- The body of the worker's `try` block: existence check, metrics fetch,
summarization, persistence, export.  `Except.ok none` models the bare
`return;` (skip), `Except.ok (some s)` models `return summary`, and
`Except.error e` models an exception escaping the block.  Each collaborator
call is recorded in the trace before its result is inspected. -/
def workerBody (c : Collab) (ctx : SummarizerPipelineContext)
    (interval : TimeInterval) (repoId : String) :
    Except String (Option String) × List Effect :=
  let dateRange : DateRange :=
    { startDate := c.toDateString interval.intervalStart
      endDate := c.toDateString interval.intervalEnd }
  let checked :=
    if !ctx.overwrite then
      checkExistingSummary c repoId dateRange.startDate interval.intervalType ctx.outputDir
    else (Except.ok false, [])
  match checked with
  | (Except.error e, fx) => (Except.error e, fx)
  | (Except.ok true, fx) => (Except.ok none, fx)
  | (Except.ok false, fx0) =>
    let fx1 := fx0 ++ [Effect.fetchedMetrics repoId dateRange.startDate dateRange.endDate]
    match c.getRepoMetrics repoId dateRange with
    | Except.error e => (Except.error e, fx1)
    | Except.ok metrics =>
      let fx2 := fx1 ++ [Effect.summarized dateRange.startDate dateRange.endDate interval.intervalType]
      match c.generateRepoSummary metrics ctx.aiSummaryConfig dateRange interval.intervalType with
      | Except.error e => (Except.error e, fx2)
      | Except.ok summaryOpt =>
        if strFalsy summaryOpt then (Except.ok none, fx2)
        else
          let summary := summaryOpt.getD ""
          let fx3 := fx2 ++
            [Effect.stored repoId (c.toDateString interval.intervalStart) summary interval.intervalType]
          match c.storeRepoSummary repoId (c.toDateString interval.intervalStart) summary
              interval.intervalType with
          | Except.error e => (Except.error e, fx3)
          | Except.ok _ =>
            let filename := c.toDateString interval.intervalStart ++ ".md"
            let outputPath :=
              c.getRepoFilePath ctx.outputDir repoId "summaries" interval.intervalType filename
            let fx4 := fx3 ++ [Effect.wrote outputPath summary]
            match c.writeToFile outputPath summary with
            | Except.error e => (Except.error e, fx4)
            | Except.ok _ => (Except.ok (some summary), fx4)

/-- The three JavaScript return values of the worker: `null` (AI summaries
disabled), `undefined` (skip or caught error), or the summary string. -/
inductive WorkerResult
  | retNull
  | retUndefined
  | retSummary (s : String)
deriving DecidableEq, Repr

/-- Model of `generateRepoSummaryForInterval`: the disabled gate, then the `try`
block; a caught exception is logged and converted to `undefined`. -/
def generateRepoSummaryForInterval (c : Collab) (ctx : SummarizerPipelineContext)
    (interval : TimeInterval) (repoId : String) : WorkerResult × List Effect :=
  if !ctx.aiSummaryConfig.enabled then (WorkerResult.retNull, [])
  else
    match workerBody c ctx interval repoId with
    | (Except.ok none, fx) => (WorkerResult.retUndefined, fx)
    | (Except.ok (some s), fx) => (WorkerResult.retSummary s, fx)
    | (Except.error _, fx) => (WorkerResult.retUndefined, fx ++ [Effect.loggedError repoId])

/-- Gate stage of `generateMonthlyRepoSummaries`: pass the interval list
through when `enabledIntervals.month` is set, else the empty list. -/
def monthGate (input : List TimeInterval) (ctx : SummarizerPipelineContext) :
    List TimeInterval :=
  if ctx.enabledIntervals.month then input else []

/-- Gate stage of `generateWeeklyRepoSummaries`. -/
def weekGate (input : List TimeInterval) (ctx : SummarizerPipelineContext) :
    List TimeInterval :=
  if ctx.enabledIntervals.week then input else []

/-- Gate stage of `generateDailyRepoSummaries`. -/
def dayGate (input : List TimeInterval) (ctx : SummarizerPipelineContext) :
    List TimeInterval :=
  if ctx.enabledIntervals.day then input else []

/-! Definitions for the RSS feed route. -/

/-- A row of the `overallSummaries` table as read by the feed route.
`intervalType` is the raw string column compared against
day/week/month; `summary` is the nullable text column. -/
structure OverallSummary where
  date : String
  intervalType : String
  summary : Option String
deriving DecidableEq, Repr

/-- Boolean comparison realising `orderBy(desc(overallSummaries.date))`:
`a` may precede `b` when `a`'s date is at least `b`'s. -/
def dateDesc (a b : OverallSummary) : Bool := decide (b.date ≤ a.date)

/-- Semantics of one route query: `select().from(overallSummaries)
.where(eq(intervalType, t)).orderBy(desc(date)).limit(k)` over a database
modelled as a row list. -/
def selectSummaries (db : List OverallSummary) (t : String) (k : Nat) :
    List OverallSummary :=
  ((db.filter (fun r => r.intervalType == t)).mergeSort dateDesc).take k

/-- The `dailySummaries` query of the route (limit 30). -/
def dailySummaries (db : List OverallSummary) : List OverallSummary :=
  selectSummaries db "day" 30

/-- The `weeklySummaries` query of the route (limit 4). -/
def weeklySummaries (db : List OverallSummary) : List OverallSummary :=
  selectSummaries db "week" 4

/-- The `monthlySummaries` query of the route (limit 1). -/
def monthlySummaries (db : List OverallSummary) : List OverallSummary :=
  selectSummaries db "month" 1

/-- Global single-character replacement, the meaning of
`text.replace(/c/g, r)` for a one-character pattern: every occurrence of
`c` becomes `r`, every other character is kept. -/
def replaceChar (c : Char) (r : String) (s : String) : String :=
  String.mk (s.data.flatMap (fun a => if a = c then r.data else [a]))

/-- Model of `s.slice(0, n)`: the first `n` characters of `s`. -/
def sliceTo (s : String) (n : Nat) : String :=
  String.mk (s.data.take n)

/-- The double-quote character. -/
def quotChar : Char := Char.ofNat 34

/-- The single-quote (apostrophe) character. -/
def aposChar : Char := Char.ofNat 39

/-- Model of `escapeXml`: the route's five sequential global replacements, in
source order (`&` first, then `<`, `>`, the double quote, the single
quote). -/
def escapeXml (text : String) : String :=
  replaceChar aposChar "&apos;"
    (replaceChar quotChar "&quot;"
      (replaceChar '>' "&gt;"
        (replaceChar '<' "&lt;"
          (replaceChar '&' "&amp;" text))))

/-- Per-character XML escaping: each of the five special characters maps
to its entity, every other character to itself. -/
def escChar (a : Char) : String :=
  if a = '&' then "&amp;"
  else if a = '<' then "&lt;"
  else if a = '>' then "&gt;"
  else if a = quotChar then "&quot;"
  else if a = aposChar then "&apos;"
  else String.singleton a

/-- The description text `formatItem` computes before escaping:
`summary.summary ? stripMarkdown(summary.summary).slice(0, 500)
: label + " contributor activity summary"`.  The markdown
stripper is passed in as the collaborator `strip`. -/
def descriptionText (strip : String → String) (label : String)
    (row : OverallSummary) : String :=
  if strFalsy row.summary then label ++ " contributor activity summary"
  else sliceTo (strip (row.summary.getD "")) 500

/-- The text `formatItem` places between `<title>` and `</title>`:
the label and the raw row date, not passed through `escapeXml`. -/
def placedTitle (label : String) (row : OverallSummary) : String :=
  label ++ ": " ++ row.date

/-- The text `formatItem` places between `<description>` and
`</description>`: the escaped description, with `...` appended exactly
when the description's length reached 500. -/
def placedDescription (strip : String → String) (label : String)
    (row : OverallSummary) : String :=
  let description := descriptionText strip label row
  escapeXml description ++ (if 500 ≤ description.length then "..." else "")

/-- The permalink `formatItem` builds for a row. -/
def itemLink (siteUrl intervalType : String) (row : OverallSummary) : String :=
  siteUrl ++ "/summary/" ++ intervalType ++ "/" ++ row.date

/-- Model of `formatItem`: the XML fragment emitted for one row.  Rendering the
row date as an RFC-1123 `pubDate` goes through the collaborator
`toUTCString`. -/
def formatItem (strip : String → String) (toUTCString : String → String)
    (siteUrl : String) (row : OverallSummary)
    (intervalType label : String) : String :=
  "\n    <item>\n      <title>" ++ placedTitle label row ++
  "</title>\n      <link>" ++ itemLink siteUrl intervalType row ++
  "</link>\n      <guid isPermaLink=\x22true\x22>" ++ itemLink siteUrl intervalType row ++
  "</guid>\n      <pubDate>" ++ toUTCString row.date ++
  "</pubDate>\n      <description>" ++ placedDescription strip label row ++
  "</description>\n    </item>"

/-- The item list of the feed: monthly items, then weekly, then daily,
exactly as the route spreads the three mapped arrays. -/
def feedItems (strip toUTCString : String → String) (siteUrl : String)
    (db : List OverallSummary) : List String :=
  (monthlySummaries db).map
      (fun s => formatItem strip toUTCString siteUrl s "month" "Monthly Summary") ++
    (weeklySummaries db).map
      (fun s => formatItem strip toUTCString siteUrl s "week" "Weekly Summary") ++
    (dailySummaries db).map
      (fun s => formatItem strip toUTCString siteUrl s "day" "Daily Summary")

/-- The fixed text of the RSS envelope before the joined items. -/
def rssEnvelopeOpen (siteUrl now : String) : String :=
  "<?xml version=\x221.0\x22 encoding=\x22UTF-8\x22?>\n<rss version=\x222.0\x22 xmlns:atom=\x22http://www.w3.org/2005/Atom\x22>\n  <channel>\n    <title>" ++
  escapeXml "Contributor Analytics" ++
  "</title>\n    <link>" ++ siteUrl ++
  "</link>\n    <description>Daily contributor activity summaries and analytics</description>\n    <language>en-us</language>\n    <lastBuildDate>" ++
  now ++
  "</lastBuildDate>\n    <atom:link href=\x22" ++ siteUrl ++
  "/rss.xml\x22 rel=\x22self\x22 type=\x22application/rss+xml\x22/>\n    "

/-- The fixed text of the RSS envelope after the joined items. -/
def rssEnvelopeClose : String :=
  "\n  </channel>\n</rss>"

/-- The whole RSS 2.0 document the `GET` handler returns: envelope around
the joined item fragments. -/
def rssDocument (strip toUTCString : String → String) (siteUrl now : String)
    (db : List OverallSummary) : String :=
  rssEnvelopeOpen siteUrl now ++
    String.join (feedItems strip toUTCString siteUrl db) ++ rssEnvelopeClose

/-! Concrete instances used to exercise the definitions. -/

/-- A concrete collaborator assignment on which every call succeeds. -/
def sampleCollab : Collab where
  toDateString := fun n => "2024-01-0" ++ toString n
  getRepoFilePath := fun dir repoId category itype filename =>
    dir.getD "" ++ "/" ++ repoId ++ "/" ++ category ++ "/" ++
      (match itype with
        | IntervalType.day => "day"
        | IntervalType.week => "week"
        | IntervalType.month => "month") ++ "/" ++ filename
  existsSync := fun _ => Except.ok false
  getRepoMetrics := fun _ _ => Except.ok ⟨7⟩
  generateRepoSummary := fun _ _ _ _ => Except.ok (some "Great progress")
  storeRepoSummary := fun _ _ _ _ => Except.ok ()
  writeToFile := fun _ _ => Except.ok ()

/-- A concrete pipeline context: summaries enabled, no forced overwrite,
an output directory configured, all granularities enabled. -/
def sampleCtx : SummarizerPipelineContext where
  aiSummaryConfig := ⟨true⟩
  overwrite := false
  outputDir := some "/out"
  enabledIntervals := ⟨true, true, true⟩

/-- A concrete interval: the first day of 2024. -/
def sampleInterval : TimeInterval :=
  ⟨IntervalType.day, 1, 2⟩

/-! Claims about the per-interval worker. -/

/-- C2: when `aiSummaryConfig.enabled` is false the worker returns `null`
with an empty effect trace: no metrics fetch, no persistence, no file
write, no filesystem probe. -/
theorem worker_disabled_returns_null_no_effects
    (c : Collab) (ctx : SummarizerPipelineContext) (interval : TimeInterval)
    (repoId : String) (hen : ctx.aiSummaryConfig.enabled = false) :
    generateRepoSummaryForInterval c ctx interval repoId =
      (WorkerResult.retNull, []) := by
  simp [generateRepoSummaryForInterval, hen]

/-- Witness for C2 at a concrete disabled context. -/
theorem worker_disabled_returns_null_no_effects_witness :
    generateRepoSummaryForInterval sampleCollab
        { sampleCtx with aiSummaryConfig := ⟨false⟩ } sampleInterval "r1" =
      (WorkerResult.retNull, []) :=
  worker_disabled_returns_null_no_effects sampleCollab
    { sampleCtx with aiSummaryConfig := ⟨false⟩ } sampleInterval "r1" rfl

/-- C1: with overwrite off, a configured output directory and an existing
export file at the deterministic path, the worker returns `undefined`
after only the existence probe: it never fetches metrics, never calls the
summarizer and never persists. -/
theorem worker_skips_when_export_exists
    (c : Collab) (ctx : SummarizerPipelineContext) (interval : TimeInterval)
    (repoId dir : String)
    (hen : ctx.aiSummaryConfig.enabled = true)
    (hov : ctx.overwrite = false)
    (hdir : ctx.outputDir = some dir)
    (hne : dir.isEmpty = false)
    (hex : c.existsSync
        (c.getRepoFilePath (some dir) repoId "summaries" interval.intervalType
          (c.toDateString interval.intervalStart ++ ".md")) = Except.ok true) :
    generateRepoSummaryForInterval c ctx interval repoId =
      (WorkerResult.retUndefined,
        [Effect.checkedFile
          (c.getRepoFilePath (some dir) repoId "summaries" interval.intervalType
            (c.toDateString interval.intervalStart ++ ".md"))]) ∧
    (∀ r a b, Effect.fetchedMetrics r a b ∉
      (generateRepoSummaryForInterval c ctx interval repoId).2) ∧
    (∀ a b t, Effect.summarized a b t ∉
      (generateRepoSummaryForInterval c ctx interval repoId).2) ∧
    (∀ r d s t, Effect.stored r d s t ∉
      (generateRepoSummaryForInterval c ctx interval repoId).2) := by
  have hmain :
      generateRepoSummaryForInterval c ctx interval repoId =
        (WorkerResult.retUndefined,
          [Effect.checkedFile
            (c.getRepoFilePath (some dir) repoId "summaries" interval.intervalType
              (c.toDateString interval.intervalStart ++ ".md"))]) := by
    simp [generateRepoSummaryForInterval, workerBody, checkExistingSummary, strFalsy,
      hen, hov, hdir, hne, hex]
  refine ⟨hmain, ?_, ?_, ?_⟩ <;> rw [hmain] <;> simp

/-- Witness for C1 at a concrete context whose export file exists. -/
theorem worker_skips_when_export_exists_witness :
    generateRepoSummaryForInterval
        { sampleCollab with existsSync := fun _ => Except.ok true }
        sampleCtx sampleInterval "r1" =
      (WorkerResult.retUndefined,
        [Effect.checkedFile "/out/r1/summaries/day/2024-01-01.md"]) :=
  (worker_skips_when_export_exists
    { sampleCollab with existsSync := fun _ => Except.ok true }
    sampleCtx sampleInterval "r1" "/out" rfl rfl rfl rfl rfl).1

/-- C3: when the body of the worker's `try` block throws, the worker
catches the exception, logs it with the repository identifier, and
returns `undefined` instead of propagating the error. -/
theorem worker_catches_and_swallows_errors
    (c : Collab) (ctx : SummarizerPipelineContext) (interval : TimeInterval)
    (repoId : String) (e : String) (fx : List Effect)
    (hen : ctx.aiSummaryConfig.enabled = true)
    (hbody : workerBody c ctx interval repoId = (Except.error e, fx)) :
    generateRepoSummaryForInterval c ctx interval repoId =
      (WorkerResult.retUndefined, fx ++ [Effect.loggedError repoId]) := by
  simp [generateRepoSummaryForInterval, hen, hbody]

/-- Witness for C3: a collaborator whose metrics query throws. -/
theorem worker_catches_and_swallows_errors_witness :
    generateRepoSummaryForInterval
        { sampleCollab with getRepoMetrics := fun _ _ => Except.error "db down" }
        sampleCtx sampleInterval "r1" =
      (WorkerResult.retUndefined,
        [Effect.checkedFile "/out/r1/summaries/day/2024-01-01.md",
          Effect.fetchedMetrics "r1" "2024-01-01" "2024-01-02",
          Effect.loggedError "r1"]) :=
  worker_catches_and_swallows_errors
    { sampleCollab with getRepoMetrics := fun _ _ => Except.error "db down" }
    sampleCtx sampleInterval "r1" "db down"
    [Effect.checkedFile "/out/r1/summaries/day/2024-01-01.md",
      Effect.fetchedMetrics "r1" "2024-01-01" "2024-01-02"]
    rfl rfl

/-- The existence check only ever records filesystem probes: its trace
holds no metrics fetch, no summarizer call, no store and no write. -/
theorem checkExistingSummary_effects
    (c : Collab) (repoId date : String) (intervalType : IntervalType)
    (outputDir : Option String) (e : Effect)
    (he : e ∈ (checkExistingSummary c repoId date intervalType outputDir).2) :
    ∃ p, e = Effect.checkedFile p := by
  by_cases h : strFalsy outputDir = true
  · simp [checkExistingSummary, h] at he
  · simp [checkExistingSummary, h] at he
    exact ⟨_, he⟩

/-- C4: with no output directory configured, the existence check reports
`false` without consulting anything, so the worker never skips: its first
recorded action is the metrics fetch, it never probes the filesystem for
a prior export, and whenever metrics and a non-empty summary are produced
it stores (overwrites) the summary again. -/
theorem worker_never_skips_without_outputDir
    (c : Collab) (ctx : SummarizerPipelineContext) (interval : TimeInterval)
    (repoId : String)
    (hen : ctx.aiSummaryConfig.enabled = true)
    (hov : ctx.overwrite = false)
    (hdir : ctx.outputDir = none) :
    checkExistingSummary c repoId (c.toDateString interval.intervalStart)
        interval.intervalType none = (Except.ok false, []) ∧
    (∃ rest, (generateRepoSummaryForInterval c ctx interval repoId).2 =
        Effect.fetchedMetrics repoId (c.toDateString interval.intervalStart)
          (c.toDateString interval.intervalEnd) :: rest) ∧
    (∀ p, Effect.checkedFile p ∉
      (generateRepoSummaryForInterval c ctx interval repoId).2) ∧
    (∀ m s, c.getRepoMetrics repoId
          ⟨c.toDateString interval.intervalStart, c.toDateString interval.intervalEnd⟩ =
            Except.ok m →
        c.generateRepoSummary m ctx.aiSummaryConfig
          ⟨c.toDateString interval.intervalStart, c.toDateString interval.intervalEnd⟩
          interval.intervalType = Except.ok (some s) →
        s.isEmpty = false →
        Effect.stored repoId (c.toDateString interval.intervalStart) s
            interval.intervalType ∈
          (generateRepoSummaryForInterval c ctx interval repoId).2) := by
  have hcf : checkExistingSummary c repoId (c.toDateString interval.intervalStart)
      interval.intervalType none = (Except.ok false, []) := by
    simp [checkExistingSummary, strFalsy]
  refine ⟨hcf, ?_⟩
  cases hm : c.getRepoMetrics repoId
      ⟨c.toDateString interval.intervalStart, c.toDateString interval.intervalEnd⟩ with
  | error eM =>
    have hw : generateRepoSummaryForInterval c ctx interval repoId =
        (WorkerResult.retUndefined,
          [Effect.fetchedMetrics repoId (c.toDateString interval.intervalStart)
              (c.toDateString interval.intervalEnd),
            Effect.loggedError repoId]) := by
      simp [generateRepoSummaryForInterval, workerBody, checkExistingSummary, strFalsy,
        hen, hov, hdir, hm]
    refine ⟨⟨_, by rw [hw]⟩, by rw [hw]; simp, ?_⟩
    intro m s hm' _ _
    exact absurd hm' (by simp)
  | ok m =>
    cases hs : c.generateRepoSummary m ctx.aiSummaryConfig
        ⟨c.toDateString interval.intervalStart, c.toDateString interval.intervalEnd⟩
        interval.intervalType with
    | error eS =>
      have hw : generateRepoSummaryForInterval c ctx interval repoId =
          (WorkerResult.retUndefined,
            [Effect.fetchedMetrics repoId (c.toDateString interval.intervalStart)
                (c.toDateString interval.intervalEnd),
              Effect.summarized (c.toDateString interval.intervalStart)
                (c.toDateString interval.intervalEnd) interval.intervalType,
              Effect.loggedError repoId]) := by
        simp [generateRepoSummaryForInterval, workerBody, checkExistingSummary, strFalsy,
          hen, hov, hdir, hm, hs]
      refine ⟨⟨_, by rw [hw]⟩, by rw [hw]; simp, ?_⟩
      intro m' s hm' hs' _
      injection hm' with hmEq
      subst hmEq
      rw [hs] at hs'
      exact absurd hs' (by simp)
    | ok r =>
      by_cases hr : strFalsy r = true
      · have hw : generateRepoSummaryForInterval c ctx interval repoId =
            (WorkerResult.retUndefined,
              [Effect.fetchedMetrics repoId (c.toDateString interval.intervalStart)
                  (c.toDateString interval.intervalEnd),
                Effect.summarized (c.toDateString interval.intervalStart)
                  (c.toDateString interval.intervalEnd) interval.intervalType]) := by
          simp [generateRepoSummaryForInterval, workerBody, hen, hov, hdir, hcf, hm, hs, hr]
        refine ⟨⟨_, by rw [hw]⟩, by rw [hw]; simp, ?_⟩
        intro m' s hm' hs' hse
        injection hm' with hmEq
        subst hmEq
        rw [hs] at hs'
        injection hs' with hrEq
        subst hrEq
        simp [strFalsy, hse] at hr
      · have hbody : workerBody c ctx interval repoId =
            (match c.storeRepoSummary repoId (c.toDateString interval.intervalStart)
                (r.getD "") interval.intervalType with
              | Except.error eT =>
                (Except.error eT,
                  [Effect.fetchedMetrics repoId (c.toDateString interval.intervalStart)
                      (c.toDateString interval.intervalEnd),
                    Effect.summarized (c.toDateString interval.intervalStart)
                      (c.toDateString interval.intervalEnd) interval.intervalType,
                    Effect.stored repoId (c.toDateString interval.intervalStart)
                      (r.getD "") interval.intervalType])
              | Except.ok _ =>
                (match c.writeToFile
                    (c.getRepoFilePath none repoId "summaries" interval.intervalType
                      (c.toDateString interval.intervalStart ++ ".md")) (r.getD "") with
                  | Except.error eW =>
                    (Except.error eW,
                      [Effect.fetchedMetrics repoId (c.toDateString interval.intervalStart)
                          (c.toDateString interval.intervalEnd),
                        Effect.summarized (c.toDateString interval.intervalStart)
                          (c.toDateString interval.intervalEnd) interval.intervalType,
                        Effect.stored repoId (c.toDateString interval.intervalStart)
                          (r.getD "") interval.intervalType,
                        Effect.wrote
                          (c.getRepoFilePath none repoId "summaries" interval.intervalType
                            (c.toDateString interval.intervalStart ++ ".md")) (r.getD "")])
                  | Except.ok _ =>
                    (Except.ok (some (r.getD "")),
                      [Effect.fetchedMetrics repoId (c.toDateString interval.intervalStart)
                          (c.toDateString interval.intervalEnd),
                        Effect.summarized (c.toDateString interval.intervalStart)
                          (c.toDateString interval.intervalEnd) interval.intervalType,
                        Effect.stored repoId (c.toDateString interval.intervalStart)
                          (r.getD "") interval.intervalType,
                        Effect.wrote
                          (c.getRepoFilePath none repoId "summaries" interval.intervalType
                            (c.toDateString interval.intervalStart ++ ".md"))
                          (r.getD "")]))) := by
          simp [workerBody, hov, hdir, hcf, hm, hs, hr]
        cases hst : c.storeRepoSummary repoId (c.toDateString interval.intervalStart)
            (r.getD "") interval.intervalType with
        | error eT =>
          have hw : generateRepoSummaryForInterval c ctx interval repoId =
              (WorkerResult.retUndefined,
                [Effect.fetchedMetrics repoId (c.toDateString interval.intervalStart)
                    (c.toDateString interval.intervalEnd),
                  Effect.summarized (c.toDateString interval.intervalStart)
                    (c.toDateString interval.intervalEnd) interval.intervalType,
                  Effect.stored repoId (c.toDateString interval.intervalStart)
                    (r.getD "") interval.intervalType,
                  Effect.loggedError repoId]) := by
            rw [hst] at hbody
            simp [generateRepoSummaryForInterval, hen, hbody]
          refine ⟨⟨_, by rw [hw]⟩, by rw [hw]; simp, ?_⟩
          intro m' s hm' hs' _
          injection hm' with hmEq
          subst hmEq
          rw [hs] at hs'
          injection hs' with hrEq
          subst hrEq
          rw [hw]
          simp
        | ok _ =>
          cases hwr : c.writeToFile
              (c.getRepoFilePath none repoId "summaries" interval.intervalType
                (c.toDateString interval.intervalStart ++ ".md")) (r.getD "") with
          | error eW =>
            have hw : generateRepoSummaryForInterval c ctx interval repoId =
                (WorkerResult.retUndefined,
                  [Effect.fetchedMetrics repoId (c.toDateString interval.intervalStart)
                      (c.toDateString interval.intervalEnd),
                    Effect.summarized (c.toDateString interval.intervalStart)
                      (c.toDateString interval.intervalEnd) interval.intervalType,
                    Effect.stored repoId (c.toDateString interval.intervalStart)
                      (r.getD "") interval.intervalType,
                    Effect.wrote
                      (c.getRepoFilePath none repoId "summaries" interval.intervalType
                        (c.toDateString interval.intervalStart ++ ".md")) (r.getD ""),
                    Effect.loggedError repoId]) := by
              rw [hst, hwr] at hbody
              simp [generateRepoSummaryForInterval, hen, hbody]
            refine ⟨⟨_, by rw [hw]⟩, by rw [hw]; simp, ?_⟩
            intro m' s hm' hs' _
            injection hm' with hmEq
            subst hmEq
            rw [hs] at hs'
            injection hs' with hrEq
            subst hrEq
            rw [hw]
            simp
          | ok _ =>
            have hw : generateRepoSummaryForInterval c ctx interval repoId =
                (WorkerResult.retSummary (r.getD ""),
                  [Effect.fetchedMetrics repoId (c.toDateString interval.intervalStart)
                      (c.toDateString interval.intervalEnd),
                    Effect.summarized (c.toDateString interval.intervalStart)
                      (c.toDateString interval.intervalEnd) interval.intervalType,
                    Effect.stored repoId (c.toDateString interval.intervalStart)
                      (r.getD "") interval.intervalType,
                    Effect.wrote
                      (c.getRepoFilePath none repoId "summaries" interval.intervalType
                        (c.toDateString interval.intervalStart ++ ".md")) (r.getD "")]) := by
              rw [hst, hwr] at hbody
              simp [generateRepoSummaryForInterval, hen, hbody]
            refine ⟨⟨_, by rw [hw]⟩, by rw [hw]; simp, ?_⟩
            intro m' s hm' hs' _
            injection hm' with hmEq
            subst hmEq
            rw [hs] at hs'
            injection hs' with hrEq
            subst hrEq
            rw [hw]
            simp

/-- Witness for C4: the worker with no output directory fetches metrics
first and re-stores the summary. -/
theorem worker_never_skips_without_outputDir_witness :
    checkExistingSummary sampleCollab "r1" "2024-01-01" IntervalType.day none =
      (Except.ok false, []) ∧
    Effect.stored "r1" "2024-01-01" "Great progress" IntervalType.day ∈
      (generateRepoSummaryForInterval sampleCollab { sampleCtx with outputDir := none }
        sampleInterval "r1").2 := by
  have h := worker_never_skips_without_outputDir sampleCollab
    { sampleCtx with outputDir := none } sampleInterval "r1" rfl rfl rfl
  exact ⟨h.1, h.2.2.2 ⟨7⟩ "Great progress" rfl rfl rfl⟩

/-- C5: when the summarizer yields `null` or the empty string (and the
worker reached it: summaries enabled, no skip from the existence check),
the worker returns `undefined` and neither persists nor writes an export
file. -/
theorem worker_skips_persistence_on_empty_summary
    (c : Collab) (ctx : SummarizerPipelineContext) (interval : TimeInterval)
    (repoId : String) (m : Metrics) (r : Option String)
    (hen : ctx.aiSummaryConfig.enabled = true)
    (hreach : ctx.overwrite = true ∨
      (checkExistingSummary c repoId (c.toDateString interval.intervalStart)
          interval.intervalType ctx.outputDir).1 = Except.ok false)
    (hm : c.getRepoMetrics repoId
        ⟨c.toDateString interval.intervalStart, c.toDateString interval.intervalEnd⟩ =
          Except.ok m)
    (hs : c.generateRepoSummary m ctx.aiSummaryConfig
        ⟨c.toDateString interval.intervalStart, c.toDateString interval.intervalEnd⟩
        interval.intervalType = Except.ok r)
    (hr : strFalsy r = true) :
    (generateRepoSummaryForInterval c ctx interval repoId).1 =
      WorkerResult.retUndefined ∧
    (∀ a b s t, Effect.stored a b s t ∉
      (generateRepoSummaryForInterval c ctx interval repoId).2) ∧
    (∀ p ct, Effect.wrote p ct ∉
      (generateRepoSummaryForInterval c ctx interval repoId).2) := by
  by_cases hov : ctx.overwrite = true
  · have hw : generateRepoSummaryForInterval c ctx interval repoId =
        (WorkerResult.retUndefined,
          [Effect.fetchedMetrics repoId (c.toDateString interval.intervalStart)
              (c.toDateString interval.intervalEnd),
            Effect.summarized (c.toDateString interval.intervalStart)
              (c.toDateString interval.intervalEnd) interval.intervalType]) := by
      simp [generateRepoSummaryForInterval, workerBody, hen, hov, hm, hs, hr]
    rw [hw]
    refine ⟨rfl, ?_, ?_⟩ <;> simp
  · have hreach' : (checkExistingSummary c repoId (c.toDateString interval.intervalStart)
        interval.intervalType ctx.outputDir).1 = Except.ok false := by
      rcases hreach with h | h
      · exact absurd h hov
      · exact h
    obtain ⟨fx0, hc⟩ : ∃ fx0,
        checkExistingSummary c repoId (c.toDateString interval.intervalStart)
          interval.intervalType ctx.outputDir = (Except.ok false, fx0) :=
      ⟨(checkExistingSummary c repoId (c.toDateString interval.intervalStart)
          interval.intervalType ctx.outputDir).2, by rw [← hreach']⟩
    have hov' : ctx.overwrite = false := by
      cases h : ctx.overwrite
      · rfl
      · exact absurd h hov
    have hw : generateRepoSummaryForInterval c ctx interval repoId =
        (WorkerResult.retUndefined,
          fx0 ++
            [Effect.fetchedMetrics repoId (c.toDateString interval.intervalStart)
                (c.toDateString interval.intervalEnd),
              Effect.summarized (c.toDateString interval.intervalStart)
                (c.toDateString interval.intervalEnd) interval.intervalType]) := by
      simp [generateRepoSummaryForInterval, workerBody, hen, hov', hc, hm, hs, hr]
    rw [hw]
    refine ⟨rfl, ?_, ?_⟩
    · intro a b s t hmem
      simp at hmem
      obtain ⟨p, hp⟩ := checkExistingSummary_effects c repoId
        (c.toDateString interval.intervalStart) interval.intervalType ctx.outputDir _
        (by rw [hc]; exact hmem)
      simp at hp
    · intro p ct hmem
      simp at hmem
      obtain ⟨q, hq⟩ := checkExistingSummary_effects c repoId
        (c.toDateString interval.intervalStart) interval.intervalType ctx.outputDir _
        (by rw [hc]; exact hmem)
      simp at hq

/-- Witness for C5: a collaborator whose summarizer reports no activity. -/
theorem worker_skips_persistence_on_empty_summary_witness :
    (generateRepoSummaryForInterval
        { sampleCollab with generateRepoSummary := fun _ _ _ _ => Except.ok none }
        sampleCtx sampleInterval "r1").1 = WorkerResult.retUndefined ∧
    Effect.stored "r1" "2024-01-01" "Great progress" IntervalType.day ∉
      (generateRepoSummaryForInterval
        { sampleCollab with generateRepoSummary := fun _ _ _ _ => Except.ok none }
        sampleCtx sampleInterval "r1").2 := by
  have h := worker_skips_persistence_on_empty_summary
    { sampleCollab with generateRepoSummary := fun _ _ _ _ => Except.ok none }
    sampleCtx sampleInterval "r1" ⟨7⟩ none rfl (Or.inr rfl) rfl rfl rfl
  exact ⟨h.1, h.2.1 "r1" "2024-01-01" "Great progress" IntervalType.day⟩

/-- C6: each granularity gate returns its input unchanged when the
matching `enabledIntervals` flag is true, and the empty sequence when the
flag is false, whatever the input. -/
theorem gates_respect_enabled_flags
    (ctx : SummarizerPipelineContext) (input : List TimeInterval) :
    (ctx.enabledIntervals.day = true → dayGate input ctx = input) ∧
    (ctx.enabledIntervals.day = false → dayGate input ctx = []) ∧
    (ctx.enabledIntervals.week = true → weekGate input ctx = input) ∧
    (ctx.enabledIntervals.week = false → weekGate input ctx = []) ∧
    (ctx.enabledIntervals.month = true → monthGate input ctx = input) ∧
    (ctx.enabledIntervals.month = false → monthGate input ctx = []) := by
  refine ⟨fun h => ?_, fun h => ?_, fun h => ?_, fun h => ?_, fun h => ?_, fun h => ?_⟩ <;>
    simp [dayGate, weekGate, monthGate, h]

/-- Witness for C6: day enabled passes a two-interval input through,
week disabled empties it. -/
theorem gates_respect_enabled_flags_witness :
    dayGate [sampleInterval, sampleInterval]
        { sampleCtx with enabledIntervals := ⟨true, false, false⟩ } =
      [sampleInterval, sampleInterval] ∧
    weekGate [sampleInterval, sampleInterval]
        { sampleCtx with enabledIntervals := ⟨true, false, false⟩ } = [] ∧
    monthGate [sampleInterval, sampleInterval]
        { sampleCtx with enabledIntervals := ⟨true, false, false⟩ } = [] := by
  have h := gates_respect_enabled_flags
    { sampleCtx with enabledIntervals := ⟨true, false, false⟩ }
    [sampleInterval, sampleInterval]
  exact ⟨h.1 rfl, h.2.2.2.1 rfl, h.2.2.2.2.2 rfl⟩

/-! Claims about the feed route. -/

/-- The rows a limited query leaves out: everything past the first `k`
rows of the date-descending order. -/
def droppedSummaries (db : List OverallSummary) (t : String) (k : Nat) :
    List OverallSummary :=
  ((db.filter (fun r => r.intervalType == t)).mergeSort dateDesc).drop k

/-- The relation `dateDesc` is transitive. -/
theorem dateDesc_trans (a b d : OverallSummary)
    (hab : dateDesc a b) (hbd : dateDesc b d) : dateDesc a d := by
  simp [dateDesc] at *
  exact le_trans hbd hab

/-- The relation `dateDesc` is total. -/
theorem dateDesc_total (a b : OverallSummary) : dateDesc a b || dateDesc b a := by
  show (decide (b.date ≤ a.date) || decide (a.date ≤ b.date)) = true
  simp only [Bool.or_eq_true, decide_eq_true_eq]
  exact le_total b.date a.date

/-- A limited query returns `min limit matching` rows. -/
theorem selectSummaries_length (db : List OverallSummary) (t : String) (k : Nat) :
    (selectSummaries db t k).length =
      min k (db.filter (fun r => r.intervalType == t)).length := by
  simp [selectSummaries,
    (List.mergeSort_perm (db.filter (fun r => r.intervalType == t)) dateDesc).length_eq]

/-- A limited query's rows are in date-descending order. -/
theorem selectSummaries_sorted (db : List OverallSummary) (t : String) (k : Nat) :
    (selectSummaries db t k).Pairwise (fun a b => b.date ≤ a.date) := by
  have hs : ((db.filter (fun r => r.intervalType == t)).mergeSort dateDesc).Pairwise
      (fun a b => dateDesc a b = true) :=
    List.sorted_mergeSort dateDesc_trans dateDesc_total _
  have ht : (selectSummaries db t k).Pairwise (fun a b => dateDesc a b = true) :=
    hs.sublist (List.take_sublist _ _)
  exact ht.imp (fun h => by simpa [dateDesc] using h)

/-- Kept and dropped rows together are exactly the matching rows. -/
theorem selectSummaries_append_perm (db : List OverallSummary) (t : String) (k : Nat) :
    List.Perm (selectSummaries db t k ++ droppedSummaries db t k)
      (db.filter (fun r => r.intervalType == t)) := by
  rw [selectSummaries, droppedSummaries, List.take_append_drop]
  exact List.mergeSort_perm _ _

/-- Every dropped row's date is at most every kept row's date. -/
theorem selectSummaries_most_recent (db : List OverallSummary) (t : String) (k : Nat) :
    ∀ x ∈ selectSummaries db t k, ∀ y ∈ droppedSummaries db t k, y.date ≤ x.date := by
  have hs : ((db.filter (fun r => r.intervalType == t)).mergeSort dateDesc).Pairwise
      (fun a b => dateDesc a b = true) :=
    List.sorted_mergeSort dateDesc_trans dateDesc_total _
  rw [← List.take_append_drop k
    ((db.filter (fun r => r.intervalType == t)).mergeSort dateDesc)] at hs
  have hcross := (List.pairwise_append.mp hs).2.2
  intro x hx y hy
  simpa [dateDesc] using hcross x hx y hy

/-- C7: each granularity query returns at most its limit (30 daily, 4
weekly, 1 monthly) rows in date-descending order; those rows plus the
dropped rows are exactly the granularity's rows, and every dropped row is
no more recent than any returned one — so exactly the most recent rows
appear (e.g. the 30 most recent out of 35 daily rows).  The document
therefore carries at most 35 items. -/
theorem feed_selects_most_recent_limited (db : List OverallSummary) :
    (dailySummaries db).length =
      min 30 (db.filter (fun r => r.intervalType == "day")).length ∧
    (weeklySummaries db).length =
      min 4 (db.filter (fun r => r.intervalType == "week")).length ∧
    (monthlySummaries db).length =
      min 1 (db.filter (fun r => r.intervalType == "month")).length ∧
    (dailySummaries db).Pairwise (fun a b => b.date ≤ a.date) ∧
    List.Perm (dailySummaries db ++ droppedSummaries db "day" 30)
      (db.filter (fun r => r.intervalType == "day")) ∧
    (∀ x ∈ dailySummaries db, ∀ y ∈ droppedSummaries db "day" 30, y.date ≤ x.date) ∧
    (∀ strip toUTCString siteUrl,
      (feedItems strip toUTCString siteUrl db).length ≤ 35) :=
  ⟨selectSummaries_length db "day" 30, selectSummaries_length db "week" 4,
    selectSummaries_length db "month" 1, selectSummaries_sorted db "day" 30,
    selectSummaries_append_perm db "day" 30, selectSummaries_most_recent db "day" 30,
    fun strip toUTCString siteUrl => by
      have h1 := selectSummaries_length db "day" 30
      have h2 := selectSummaries_length db "week" 4
      have h3 := selectSummaries_length db "month" 1
      simp only [feedItems, List.length_append, List.length_map, dailySummaries,
        weeklySummaries, monthlySummaries] at *
      omega⟩

/-- Joining concatenated fragment lists splits into two joins. -/
theorem string_join_append (l1 l2 : List String) :
    String.join (l1 ++ l2) = String.join l1 ++ String.join l2 := by
  apply String.ext
  simp

/-- C10: the emitted document is the fixed envelope around the monthly
items, then the weekly items, then the daily items, each group in
date-descending order. -/
theorem feed_document_group_order (strip toUTCString : String → String)
    (siteUrl now : String) (db : List OverallSummary) :
    rssDocument strip toUTCString siteUrl now db =
      rssEnvelopeOpen siteUrl now ++
        (String.join ((monthlySummaries db).map
            (fun s => formatItem strip toUTCString siteUrl s "month" "Monthly Summary")) ++
          String.join ((weeklySummaries db).map
            (fun s => formatItem strip toUTCString siteUrl s "week" "Weekly Summary")) ++
          String.join ((dailySummaries db).map
            (fun s => formatItem strip toUTCString siteUrl s "day" "Daily Summary"))) ++
        rssEnvelopeClose ∧
    (monthlySummaries db).Pairwise (fun a b => b.date ≤ a.date) ∧
    (weeklySummaries db).Pairwise (fun a b => b.date ≤ a.date) ∧
    (dailySummaries db).Pairwise (fun a b => b.date ≤ a.date) := by
  refine ⟨?_, selectSummaries_sorted db "month" 1, selectSummaries_sorted db "week" 4,
    selectSummaries_sorted db "day" 30⟩
  rw [rssDocument, feedItems, string_join_append, string_join_append]

/-- Slicing keeps a string whole when it is short enough. -/
theorem sliceTo_of_length_le (s : String) (n : Nat) (h : s.length ≤ n) :
    sliceTo s n = s := by
  show String.mk (s.data.take n) = s
  rw [List.take_of_length_le h]

/-- Length of a slice. -/
theorem sliceTo_length (s : String) (n : Nat) :
    (sliceTo s n).length = min n s.length := by
  show (s.data.take n).length = min n s.data.length
  simp

/-- C8 amended: for a non-empty summary body, a stripped body of at least
500 characters yields exactly its first 500 characters followed by the
ellipsis marker, while a stripped body of fewer than 500 characters is
emitted whole with no ellipsis.  (The boundary case of exactly 500
characters receives the ellipsis.) -/
theorem description_truncated_at_500 (strip : String → String)
    (label : String) (row : OverallSummary) (s : String)
    (hrow : row.summary = some s) (hne : s.isEmpty = false) :
    (500 ≤ (strip s).length →
      placedDescription strip label row =
        escapeXml (sliceTo (strip s) 500) ++ "...") ∧
    ((strip s).length < 500 →
      placedDescription strip label row = escapeXml (strip s)) := by
  have hdesc : descriptionText strip label row = sliceTo (strip s) 500 := by
    simp [descriptionText, hrow, strFalsy, hne]
  constructor
  · intro h
    have hlen : 500 ≤ (sliceTo (strip s) 500).length := by
      rw [sliceTo_length]
      omega
    simp [placedDescription, hdesc, hlen]
  · intro h
    have hfull : sliceTo (strip s) 500 = strip s :=
      sliceTo_of_length_le _ _ (by omega)
    have hlen : ¬ 500 ≤ (strip s).length := by omega
    simp [placedDescription, hdesc, hfull, hlen]

/-- Witness for the amended C8: a two-character body is emitted whole. -/
theorem description_truncated_at_500_witness :
    placedDescription (fun s => s) "Daily Summary"
        ⟨"2024-01-01", "day", some "hi"⟩ = escapeXml "hi" :=
  (description_truncated_at_500 (fun s => s) "Daily Summary"
      ⟨"2024-01-01", "day", some "hi"⟩ "hi" rfl rfl).2 (by decide)

/-- A 500-character stripped body. -/
def fiveHundredChars : String := String.mk (List.replicate 500 'a')

/-- Counterexample to C8 as stated: a stripped body of exactly 500
characters (hence "500 characters or shorter") still has `...` appended,
so its emitted description is not the plain escaped body. -/
theorem description_ellipsis_at_exactly_500 :
    fiveHundredChars.length ≤ 500 ∧
    placedDescription (fun s => s) "Daily Summary"
        ⟨"2024-01-01", "day", some fiveHundredChars⟩ ≠
      escapeXml fiveHundredChars := by
  have hlen : fiveHundredChars.length = 500 := by
    show (List.replicate 500 (Char.ofNat 97)).length = 500
    rw [List.length_replicate]
  have hne : fiveHundredChars.isEmpty = false := by
    rw [Bool.eq_false_iff]
    intro hE
    have hniL := congrArg String.length ((String.isEmpty_iff _).mp hE)
    rw [hlen] at hniL
    exact absurd hniL (by decide)
  refine ⟨le_of_eq hlen, ?_⟩
  have hd : descriptionText (fun s => s) "Daily Summary"
      ⟨"2024-01-01", "day", some fiveHundredChars⟩ = fiveHundredChars := by
    simp [descriptionText, strFalsy, hne, sliceTo_of_length_le _ _ (le_of_eq hlen)]
  have hp : placedDescription (fun s => s) "Daily Summary"
      ⟨"2024-01-01", "day", some fiveHundredChars⟩ =
      escapeXml fiveHundredChars ++ "..." := by
    simp [placedDescription, hd, hlen]
  rw [hp]
  intro hEq
  have hL := congrArg String.length hEq
  rw [String.length_append] at hL
  have h3 : ("...").length = 3 := rfl
  omega

/-- One replacement pass, described on the character list. -/
theorem replaceChar_data (c : Char) (r : String) (s : String) :
    (replaceChar c r s).data =
      s.data.flatMap (fun a => if a = c then r.data else [a]) := rfl

/-- The five sequential passes of `escapeXml` amount to independently
mapping each character to its entity (or to itself). -/
theorem escapeXml_data (s : String) :
    (escapeXml s).data = s.data.flatMap (fun a => (escChar a).data) := by
  simp only [escapeXml, replaceChar_data]
  rw [List.flatMap_assoc, List.flatMap_assoc, List.flatMap_assoc, List.flatMap_assoc]
  refine congrArg _ (funext fun a => ?_)
  by_cases h1 : a = '&'
  · subst h1
    decide
  by_cases h2 : a = '<'
  · subst h2
    decide
  by_cases h3 : a = '>'
  · subst h3
    decide
  by_cases h4 : a = quotChar
  · subst h4
    decide
  by_cases h5 : a = aposChar
  · subst h5
    decide
  simp [escChar, h1, h2, h3, h4, h5, String.singleton]

/-- C9 amended: the emitted description is the description text with
every occurrence of the five special characters replaced by its XML
entity and every other character kept, plus the ellipsis marker when
truncation applies; the item title, by contrast, is interpolated raw,
without passing through `escapeXml`. -/
theorem description_escaped_title_raw (strip : String → String)
    (label : String) (row : OverallSummary) :
    (placedDescription strip label row).data =
      (descriptionText strip label row).data.flatMap
          (fun a => (escChar a).data) ++
        (if 500 ≤ (descriptionText strip label row).length then
          ("...").data else []) ∧
    placedTitle label row = label ++ ": " ++ row.date := by
  refine ⟨?_, rfl⟩
  simp only [placedDescription]
  rw [String.data_append, escapeXml_data, apply_ite String.data]

/-- A database row whose date column contains an ampersand. -/
def ampRow : OverallSummary := ⟨"2024&01-01", "day", some "hello"⟩

/-- Substring test on character lists. -/
def listContainsSub (sub l : List Char) : Bool :=
  (List.range (l.length + 1)).any (fun i => sub.isPrefixOf (l.drop i))

set_option maxRecDepth 16384 in
/-- Counterexample to C9 as stated: for a row whose date contains `&`,
the emitted item carries the raw, unescaped title (the literal
`<title>Daily Summary: 2024&01-01</title>` occurs in the fragment), and
escaping the title text would have changed it. -/
theorem title_not_escaped_counterexample :
    listContainsSub ("<title>Daily Summary: 2024&01-01</title>").data
        (formatItem (fun s => s) (fun s => s) "https://x" ampRow "day"
          "Daily Summary").data = true ∧
    escapeXml (placedTitle "Daily Summary" ampRow) ≠
      placedTitle "Daily Summary" ampRow := by
  constructor
  · decide
  · decide

end OpHiscores
